import Mathlib

/-!
Verification of the conversation-context, rate-limiting and message-formatting
layer of a Telegram + Gemini relay bot, shallowly embedded from the Python
sources (utils.py, bot.py, admin_controls.py, gemini_handler.py, config.py).

Strings are modelled as lists of characters, instants as natural-number
seconds, and the per-user dictionaries (Python defaultdict(list)) as total
functions from user ids to lists.  Machine-level caveat: Python compares
`cut_point > max_length * 0.7` in IEEE double arithmetic; we model the
threshold as the exact rational comparison `7 * max_length < 10 * cut_point`,
which agrees with the float comparison at every value used in this file
(the two can only differ when 7 * max_length / 10 is within one ulp of an
integer, which never happens for the lengths 200, 300, 600 and 4096 used
below).
-/

set_option maxRecDepth 40000
set_option maxHeartbeats 1600000

/-! ### utils.format_message and helpers -/

/-- The character class escaped by utils.format_message
(regex group in utils.py line 19). -/
def mdSpecial : List Char :=
  ['_', '*', '[', ']', '(', ')', '~', Char.ofNat 96, '>', '#', '+', '-', '=',
   '|', Char.ofNat 123, Char.ofNat 125, '.', '!', '\\']

/-- The newline character. -/
def nl : Char := Char.ofNat 10

/-- re.sub prefixing every special character with a backslash
(utils.py line 19). -/
def escapeMarkdown : List Char → List Char
  | [] => []
  | c :: rest => (if c ∈ mdSpecial then ['\\', c] else [c]) ++ escapeMarkdown rest

/-- Python str.rfind restricted to single characters: index of the last
occurrence, -1 when absent. -/
def pyRfind (s : List Char) (c : Char) : Int :=
  match s with
  | [] => -1
  | a :: rest =>
    if 0 ≤ pyRfind rest c then pyRfind rest c + 1
    else if a = c then 0 else -1

/-- Python slice s[:n], including the negative-index convention. -/
def pyTake (s : List Char) (n : Int) : List Char :=
  if 0 ≤ n then s.take n.toNat
  else s.take ((s.length : Int) + n).toNat

/-- The truncation marker appended by format_message (utils.py lines 30, 32). -/
def truncMarker : List Char := "\n\n... (truncated)".data

/-- The fixed fallback for empty input (utils.py line 15). -/
def fallbackMsg : List Char := "No response generated.".data

/-- The truncation step of utils.format_message (lines 22-32): try the last
sentence terminator or newline inside text[:max_length-100], accept it only
past 70 percent of max_length, otherwise hard-cut at max_length-15. -/
def truncateAt (t : List Char) (max_length : Nat) : List Char :=
  let truncated := pyTake t ((max_length : Int) - 100)
  let last_period := pyRfind truncated '.'
  let last_newline := pyRfind truncated nl
  let cut_point := max last_period last_newline
  if 7 * (max_length : Int) < 10 * cut_point then
    pyTake t (cut_point + 1) ++ truncMarker
  else
    pyTake t ((max_length : Int) - 15) ++ truncMarker

/-- utils.format_message: markdown escaping followed by length-limited
truncation (utils.py lines 12-34). -/
def format_message (text : List Char) (max_length : Nat) : List Char :=
  if text = [] then fallbackMsg
  else
    let t := escapeMarkdown text
    if max_length < t.length then truncateAt t max_length else t

/-- A reserved character other than the escape marker itself. -/
def isResNB (c : Char) : Bool := decide (c ∈ mdSpecial) && !(c == '\\')

/-- Scanner for the escaping property: every reserved non-backslash character
must be immediately preceded by a backslash; prev is the previous character. -/
def okFrom : Option Char → List Char → Bool
  | _, [] => true
  | prev, c :: rest => (!(isResNB c) || (prev == some '\\')) && okFrom (some c) rest

/-- Every reserved non-backslash character in s is immediately preceded by
the escape marker. -/
def wellEscaped (s : List Char) : Bool := okFrom none s

/-! ### utils.is_admin and utils.rate_limit_check -/

abbrev UserId := Nat

/-- Relevant fields of config.Config (config.py lines 11-32). -/
structure Config where
  admin_id : UserId
  max_message_length : Nat
  max_image_size : Nat
  rate_limit_messages : Nat
  rate_limit_window : Nat

/-- The deployed configuration values (config.py lines 23-29). -/
def cfg0 : Config :=
  { admin_id := 1
    max_message_length := 4096
    max_image_size := 20 * 1024 * 1024
    rate_limit_messages := 10
    rate_limit_window := 60 }

/-- utils.is_admin (utils.py lines 36-38). -/
def is_admin (user_id : UserId) (admin_id : UserId) : Bool := user_id == admin_id

/-- utils.rate_limit_check (utils.py lines 40-60): purge entries that are not
strictly newer than now minus the window, reject without recording when the
remaining count reaches the limit, otherwise record now and allow.  The purged
log is written back in both cases. -/
def rate_limit_check (user_id : UserId) (user_requests : UserId → List Nat)
    (cfg : Config) (now : Nat) : Bool × (UserId → List Nat) :=
  let window_start : Int := (now : Int) - (cfg.rate_limit_window : Int)
  let purged := (user_requests user_id).filter
    (fun (req_time : Nat) => decide (window_start < (req_time : Int)))
  if cfg.rate_limit_messages ≤ purged.length then
    (false, fun u => if u = user_id then purged else user_requests u)
  else
    (true, fun u => if u = user_id then purged ++ [now] else user_requests u)

/-- The purge-then-count view of the request log used in the statements below:
entries strictly inside the trailing window. -/
def purgedLog (f : UserId → List Nat) (uid : UserId) (cfg : Config)
    (now : Nat) : List Nat :=
  (f uid).filter
    (fun (req_time : Nat) => decide ((now : Int) - (cfg.rate_limit_window : Int) < (req_time : Int)))

/-- Follows the wording of claim C5 and the spec: discard only the instants
strictly older than now minus the window, so an entry exactly one window old
is retained.  The code (strict >) instead discards it; the two are compared
in the counterexample below. -/
def rate_limit_check_claimed (user_id : UserId) (user_requests : UserId → List Nat)
    (cfg : Config) (now : Nat) : Bool × (UserId → List Nat) :=
  let window_start : Int := (now : Int) - (cfg.rate_limit_window : Int)
  let purged := (user_requests user_id).filter
    (fun (req_time : Nat) => decide (window_start ≤ (req_time : Int)))
  if cfg.rate_limit_messages ≤ purged.length then
    (false, fun u => if u = user_id then purged else user_requests u)
  else
    (true, fun u => if u = user_id then purged ++ [now] else user_requests u)

/-- k successive calls to rate_limit_check by the same user at the same
instant, starting from an empty request map. -/
def sameInstantCalls (cfg : Config) (uid : UserId) (now : Nat) :
    Nat → (UserId → List Nat)
  | 0 => fun _ => []
  | k + 1 => (rate_limit_check uid (sameInstantCalls cfg uid now k) cfg now).2

/-- Ten prior requests at instant 0 by user 1. -/
def tenAtZero : UserId → List Nat := fun u => if u = 1 then List.replicate 10 0 else []

/-! ### gemini_handler.GeminiHandler collaborator boundary -/

/-- Outcome of one underlying Gemini API call, as seen inside the handler
methods: either the call returned (with response.text possibly None or
empty) or it raised an exception carrying a description string. -/
inductive ApiResult where
  | text (t : Option String)
  | raise (e : String)

/-- Python falsiness of response.text: None and the empty string both fall
back to the default. -/
def pyStrOr (t : Option String) (d : String) : String :=
  match t with
  | none => d
  | some s => if s = "" then d else s

/-- GeminiHandler.generate_response (gemini_handler.py lines 27-41): the
internal try/except converts any raised exception into a normal string
beginning with "Error: ", so this method itself never raises. -/
def generate_response (r : ApiResult) : String :=
  match r with
  | ApiResult.text t => pyStrOr t "Sorry, I couldn\x27t generate a response."
  | ApiResult.raise e => "Error: " ++ e

/-- GeminiHandler.chat_with_context (gemini_handler.py lines 107-130); same
catch-and-return-string shape as generate_response. -/
def chat_with_context (r : ApiResult) : String :=
  match r with
  | ApiResult.text t => pyStrOr t "Sorry, I couldn\x27t generate a response."
  | ApiResult.raise e => "Error: " ++ e

/-- GeminiHandler.analyze_image (gemini_handler.py lines 43-69); also never
raises. -/
def analyze_image (r : ApiResult) : String :=
  match r with
  | ApiResult.text t => pyStrOr t "Sorry, I couldn\x27t analyze this image."
  | ApiResult.raise e => "Error analyzing image: " ++ e

/-! ### bot.TelegramBot state and handlers -/

/-- One conversation turn as stored in bot.py (lines 200-204, 218-222). -/
structure Turn where
  role : String
  content : String
  timestamp : Nat
deriving DecidableEq

/-- The bot statistics dictionary (bot.py lines 39-45). -/
structure Stats where
  messages_processed : Nat
  images_analyzed : Nat
  images_generated : Nat
  errors : Nat
  uptime_start : Nat
deriving DecidableEq

/-- Mutable bot state: per-user conversation contexts, per-user request logs
and the statistics counters (bot.py lines 35-45). -/
structure BotState where
  user_contexts : UserId → List Turn
  user_requests : UserId → List Nat
  stats : Stats

/-- The freshly initialised bot state. -/
def st0 : BotState :=
  { user_contexts := fun _ => []
    user_requests := fun _ => []
    stats := { messages_processed := 0, images_analyzed := 0, images_generated := 0,
               errors := 0, uptime_start := 0 } }

/-- Python list[-n:]. -/
def pyTakeLast (n : Nat) (l : List α) : List α := l.drop (l.length - n)

/-- The response selection of handle_message (bot.py lines 210-215): the
multi-turn mode is used exactly when the trimmed history has more than one
entry. -/
def message_response (ctx : List Turn) (ai : ApiResult) : String :=
  if 1 < ctx.length then chat_with_context ai else generate_response ai

/-- TelegramBot.handle_message (bot.py lines 182-238).  Oracles: now is the
clock at the rate-limit check, t1 and t2 the stored turn timestamps, ai the
outcome of the one Gemini API call, and sendOk whether the final reply_text
succeeds (the only transport call inside the try block whose failure the
except branch turns into an errors increment; the progress/rejection sends
sit outside the try block and are modelled as succeeding). -/
def handle_message (cfg : Config) (st : BotState) (uid : UserId)
    (message_text : String) (now t1 t2 : Nat) (ai : ApiResult) (sendOk : Bool) :
    BotState × List String :=
  let rl := rate_limit_check uid st.user_requests cfg now
  let st1 : BotState := { st with user_requests := rl.2 }
  if rl.1 = false then
    (st1, ["⚠️ You\x27re sending requests too quickly. Please wait a moment."])
  else
    let ctx1 := st1.user_contexts uid ++ [Turn.mk "user" message_text t1]
    let ctx2 := pyTakeLast 20 ctx1
    let response := message_response ctx2 ai
    let ctx3 := ctx2 ++ [Turn.mk "assistant" response t2]
    let st2 : BotState :=
      { st1 with user_contexts := fun u => if u = uid then ctx3 else st1.user_contexts u }
    if sendOk then
      ({ st2 with stats := { st2.stats with
           messages_processed := st2.stats.messages_processed + 1 } },
       [String.mk (format_message response.data cfg.max_message_length)])
    else
      ({ st2 with stats := { st2.stats with errors := st2.stats.errors + 1 } },
       ["❌ Sorry, I encountered an error: exception"])

/-- TelegramBot.generate_command (bot.py lines 97-151).  gen is the pair
returned by GeminiHandler.generate_image (which never raises: failures come
back as (None, description)); sendOk models the reply_photo / edit_text
transport call inside the try block, deleteOk the generating-message delete
performed after the counter increment. -/
def generate_command (cfg : Config) (st : BotState) (uid : UserId)
    (args : List String) (now : Nat) (gen : Option String × String)
    (sendOk deleteOk : Bool) : BotState × List String :=
  let rl := rate_limit_check uid st.user_requests cfg now
  let st1 : BotState := { st with user_requests := rl.2 }
  if rl.1 = false then
    (st1, ["⚠️ You\x27re sending requests too quickly. Please wait a moment."])
  else
    let prompt := String.intercalate " " args
    if prompt = "" then
      (st1, ["Please provide a prompt for image generation."])
    else
      match gen with
      | (some _image, desc) =>
        if sendOk = false then
          ({ st1 with stats := { st1.stats with errors := st1.stats.errors + 1 } },
           ["❌ Error generating image: exception"])
        else if deleteOk = false then
          ({ st1 with stats := { st1.stats with
               images_generated := st1.stats.images_generated + 1,
               errors := st1.stats.errors + 1 } },
           ["🎨 Generated Image: " ++ desc])
        else
          ({ st1 with stats := { st1.stats with
               images_generated := st1.stats.images_generated + 1 } },
           ["🎨 Generated Image: " ++ desc])
      | (none, desc) =>
        ({ st1 with stats := { st1.stats with errors := st1.stats.errors + 1 } },
         ["❌ Failed to generate image: " ++ desc])

/-- TelegramBot.handle_photo (bot.py lines 240-300).  file_size is the
declared size of the largest photo; downloadOk models the get_file /
download transport calls, ai the analyze_image API call (which never
raises), editOk the final edit_text of the analysis. -/
def handle_photo (cfg : Config) (st : BotState) (uid : UserId)
    (file_size : Nat) (caption : String) (now : Nat) (downloadOk : Bool)
    (ai : ApiResult) (editOk : Bool) : BotState × List String :=
  let rl := rate_limit_check uid st.user_requests cfg now
  let st1 : BotState := { st with user_requests := rl.2 }
  if rl.1 = false then
    (st1, ["⚠️ You\x27re sending requests too quickly. Please wait a moment."])
  else if cfg.max_image_size < file_size then
    (st1, ["❌ Image is too large. Maximum size is 20MB."])
  else if downloadOk = false then
    ({ st1 with stats := { st1.stats with errors := st1.stats.errors + 1 } },
     ["❌ Error analyzing image: exception"])
  else
    let analysis := analyze_image ai
    let base := "🔍 **Image Analysis**\n\n" ++ analysis
    let analysis_text := if caption = "" then base
      else "📝 **Your caption:** " ++ caption ++ "\n\n" ++ base
    if editOk = false then
      ({ st1 with stats := { st1.stats with errors := st1.stats.errors + 1 } },
       ["❌ Error analyzing image: exception"])
    else
      ({ st1 with stats := { st1.stats with
           images_analyzed := st1.stats.images_analyzed + 1 } },
       [String.mk (format_message analysis_text.data cfg.max_message_length)])

/-- TelegramBot.clear_command (bot.py lines 173-180): unconditionally empties
the invoking user entry; no rate-limit check, no counter mutation. -/
def clear_command (st : BotState) (uid : UserId) : BotState × List String :=
  ({ st with user_contexts := fun u => if u = uid then [] else st.user_contexts u },
   ["🗑️ Conversation context cleared! Starting fresh."])

/-! ### admin_controls.AdminControls.handle_callback -/

/-- The message content rendered in place by the admin callback handler:
one tag per branch of admin_controls.py lines 182-228 (unchanged means the
callback data matched no branch and nothing was edited). -/
inductive PanelView where
  | denied
  | panel
  | statsHint
  | usersHint
  | systemInfo
  | settings
  | restartNote
  | clearLogsNote
  | closed
  | unchanged
deriving DecidableEq

/-- AdminControls.handle_callback (admin_controls.py lines 182-228): the
identity check short-circuits to the denial edit before any data dispatch;
no branch touches the statistics. -/
def handle_callback (admin_id : Nat) (user_id : Nat) (data : String)
    (stats : Stats) : Stats × PanelView :=
  if user_id ≠ admin_id then (stats, PanelView.denied)
  else if data = "admin_back" then (stats, PanelView.panel)
  else if data = "admin_stats" then (stats, PanelView.statsHint)
  else if data = "admin_users" then (stats, PanelView.usersHint)
  else if data = "admin_system" then (stats, PanelView.systemInfo)
  else if data = "admin_settings" then (stats, PanelView.settings)
  else if data = "admin_restart" then (stats, PanelView.restartNote)
  else if data = "admin_clear_logs" then (stats, PanelView.clearLogsNote)
  else if data = "admin_close" then (stats, PanelView.closed)
  else (stats, PanelView.unchanged)

/-! ### Concrete example inputs -/

/-- Text whose escaped form has no sentence boundary at all: 201 letters. -/
def exNoBoundary : List Char := List.replicate 201 'a'

/-- Text for the hard-cut instance of the truncation policy at length 120:
no sentence boundary anywhere, so none past 70 percent of 120. -/
def exHard : List Char := List.replicate 121 'b'

/-- Text with a period whose escaped position is 480 = 0.8 * 600: the period
is the only boundary, it falls inside the search window [0, 500) and past
70 percent of 600. -/
def exPeriod : List Char :=
  List.replicate 479 'a' ++ '.' :: List.replicate 130 'a'

/-- Text whose escape pair is split by the hard cut at 200 - 15 = 185:
escaping puts a backslash at index 184 and the escaped period at 185. -/
def exSplit : List Char := List.replicate 184 'a' ++ '.' :: List.replicate 30 'a'

/-- Eleven consecutive text messages from user 7, spaced 61 seconds apart so
the rate limiter always allows them, with an always-succeeding AI and
transport. -/
def runN : Nat → BotState
  | 0 => st0
  | k + 1 =>
    (handle_message cfg0 (runN k) 7 "m" (61 * k) k k (ApiResult.text (some "ok")) true).1

/-- Pointwise comparison of the statistics counters: every counter of a is
at most the corresponding counter of b, and the start time is unchanged. -/
def Stats.le (a b : Stats) : Prop :=
  a.messages_processed ≤ b.messages_processed ∧
  a.images_analyzed ≤ b.images_analyzed ∧
  a.images_generated ≤ b.images_generated ∧
  a.errors ≤ b.errors ∧
  a.uptime_start = b.uptime_start

/-! ### Supporting lemmas -/

theorem pyRfind_neg_one_le (s : List Char) (c : Char) : -1 ≤ pyRfind s c := by
  induction s with
  | nil => simp [pyRfind]
  | cons a rest ih =>
    simp only [pyRfind]
    split
    · omega
    · split <;> omega

theorem pyRfind_lt_length (s : List Char) (c : Char) :
    pyRfind s c < (s.length : Int) := by
  induction s with
  | nil => simp [pyRfind]
  | cons a rest ih =>
    simp only [pyRfind, List.length_cons]
    push_cast
    split
    · omega
    · split <;> omega

theorem le_pyRfind_of_getD (s : List Char) (c d : Char) (i : Nat)
    (hi : i < s.length) (hc : s.getD i d = c) : (i : Int) ≤ pyRfind s c := by
  induction s generalizing i with
  | nil => simp at hi
  | cons a rest ih =>
    cases i with
    | zero =>
      rw [List.getD_cons_zero] at hc
      simp only [pyRfind]
      split <;> omega
    | succ j =>
      rw [List.getD_cons_succ] at hc
      have hj : j < rest.length := by simpa using hi
      have h2 := ih j hj hc
      have h0 : (0 : Int) ≤ pyRfind rest c :=
        le_trans (Int.natCast_nonneg j) h2
      simp only [pyRfind]
      rw [if_pos h0]
      push_cast
      omega

theorem pyRfind_getD (s : List Char) (c d : Char) (h : 0 ≤ pyRfind s c) :
    s.getD (pyRfind s c).toNat d = c := by
  induction s with
  | nil => simp [pyRfind] at h
  | cons a rest ih =>
    simp only [pyRfind] at h ⊢
    by_cases h0 : 0 ≤ pyRfind rest c
    · rw [if_pos h0] at h ⊢
      have he : (pyRfind rest c + 1).toNat = (pyRfind rest c).toNat + 1 := by omega
      rw [he, List.getD_cons_succ]
      exact ih h0
    · rw [if_neg h0] at h ⊢
      by_cases hac : a = c
      · rw [if_pos hac]
        simpa using hac
      · rw [if_neg hac] at h
        omega

theorem take_getD {α : Type} (l : List α) (n i : Nat) (d : α) (h : i < n) :
    (l.take n).getD i d = l.getD i d := by
  induction l generalizing n i with
  | nil => simp
  | cons a rest ih =>
    cases n with
    | zero => omega
    | succ m =>
      cases i with
      | zero => simp
      | succ j => simpa using ih m j (by omega)

theorem pyTake_eq_take (s : List Char) (n : Int) (h : 0 ≤ n) :
    pyTake s n = s.take n.toNat := by
  simp [pyTake, h]

theorem filter_replicate_pos {α : Type} (p : α → Bool) (a : α) (h : p a = true)
    (k : Nat) : (List.replicate k a).filter p = List.replicate k a := by
  induction k with
  | zero => rfl
  | succ m ih => simp [List.replicate_succ, List.filter_cons, h, ih]

theorem filter_replicate_neg {α : Type} (p : α → Bool) (a : α) (h : p a = false)
    (k : Nat) : (List.replicate k a).filter p = [] := by
  induction k with
  | zero => rfl
  | succ m ih => simp [List.replicate_succ, List.filter_cons, h, ih]

theorem okFrom_escapeMarkdown (text : List Char) :
    ∀ prev, okFrom prev (escapeMarkdown text) = true := by
  induction text with
  | nil => intro prev; rfl
  | cons c rest ih =>
    intro prev
    by_cases h : c ∈ mdSpecial
    · simp [escapeMarkdown, h, okFrom, isResNB, ih]
    · simp [escapeMarkdown, h, okFrom, isResNB, ih]

/-! ### Claim theorems: message formatter -/

/-- Claim C1 (code bug).  The hard-cut branch keeps max_length - 15
characters and then appends the 17-character marker, so the output has
length max_length + 2, contradicting the guarantee that format_message
never exceeds max_length: here a 201-character text formatted with
max_length = 200 yields 202 characters.  (The sentence-boundary branch cuts
inside text[:max_length-100] and is within the limit.) -/
theorem format_message_hard_cut_overflow :
    (format_message exNoBoundary 200).length = 202 := by decide

/-- Claim C4, counterexample.  With max_length = 200, the escaped form of
exSplit has a backslash at index 184 and its escaped period at 185; the
hard cut at 185 keeps the bare backslash and drops the period, and the
appended marker itself contains unescaped reserved characters, so the
output is not well escaped: position 184 holds the orphaned backslash,
position 185 the marker newline. -/
theorem truncated_output_not_escaped :
    wellEscaped (format_message exSplit 200) = false ∧
    (format_message exSplit 200).getD 184 ' ' = '\\' ∧
    (format_message exSplit 200).getD 185 ' ' = nl := by decide

/-- Claim C4, amended.  Escaping happens before truncation, so whenever no
truncation occurs (nonempty input whose escaped form fits in max_length)
every reserved non-backslash character of the output is immediately
preceded by the escape marker.  Truncated outputs instead end with the
fixed marker, which contains unescaped reserved characters, and the hard
cut can split an escape pair as shown in the counterexample. -/
theorem escaped_untruncated_well_escaped (text : List Char) (L : Nat)
    (htext : text ≠ []) (hfit : (escapeMarkdown text).length ≤ L) :
    wellEscaped (format_message text L) = true := by
  simp only [format_message]
  rw [if_neg htext, if_neg (show ¬ L < (escapeMarkdown text).length by omega)]
  exact okFrom_escapeMarkdown text none

theorem escaped_untruncated_well_escaped_witness :
    wellEscaped (format_message "hello.world".data 4096) = true :=
  escaped_untruncated_well_escaped "hello.world".data 4096 (by decide) (by decide)

/-- Claim C6 (confirmed).  When the escaped text exceeds max_length, the
code searches the prefix of length max_length - 100 for the last period or
newline.  First conjunct: if every such boundary in the window sits at or
below 70 percent of max_length (in particular if there is none), the
output is the hard cut at max_length - 15 followed by the marker.  Second
conjunct: if position p in the window is a boundary past 70 percent of
max_length and no boundary of either kind lies after it in the window,
the output is cut right after p and the marker appended. -/
theorem format_message_truncation_policy (text : List Char) (L : Nat)
    (hL : 100 ≤ L) (htext : text ≠ [])
    (hlong : L < (escapeMarkdown text).length) :
    ((∀ i, i < min (L - 100) (escapeMarkdown text).length →
        ((escapeMarkdown text).getD i ' ' = '.' ∨ (escapeMarkdown text).getD i ' ' = nl) →
        10 * i ≤ 7 * L) →
      format_message text L = (escapeMarkdown text).take (L - 15) ++ truncMarker) ∧
    (∀ p, p < min (L - 100) (escapeMarkdown text).length →
      ((escapeMarkdown text).getD p ' ' = '.' ∨ (escapeMarkdown text).getD p ' ' = nl) →
      7 * L < 10 * p →
      (∀ j, j < min (L - 100) (escapeMarkdown text).length → p < j →
        ¬((escapeMarkdown text).getD j ' ' = '.' ∨ (escapeMarkdown text).getD j ' ' = nl)) →
      format_message text L = (escapeMarkdown text).take (p + 1) ++ truncMarker) := by
  have htake : pyTake (escapeMarkdown text) ((L : Int) - 100) =
      (escapeMarkdown text).take (L - 100) := by
    rw [pyTake_eq_take _ _ (by omega)]
    have he : ((L : Int) - 100).toNat = L - 100 := by omega
    rw [he]
  have hw : ((escapeMarkdown text).take (L - 100)).length =
      min (L - 100) (escapeMarkdown text).length := List.length_take _ _
  have key : ∀ c : Char, 0 ≤ pyRfind ((escapeMarkdown text).take (L - 100)) c →
      (pyRfind ((escapeMarkdown text).take (L - 100)) c).toNat
          < min (L - 100) (escapeMarkdown text).length ∧
      (escapeMarkdown text).getD
          (pyRfind ((escapeMarkdown text).take (L - 100)) c).toNat ' ' = c := by
    intro c h0
    have hlt := pyRfind_lt_length ((escapeMarkdown text).take (L - 100)) c
    have hltn : (pyRfind ((escapeMarkdown text).take (L - 100)) c).toNat
        < ((escapeMarkdown text).take (L - 100)).length := by omega
    refine ⟨by rw [← hw]; exact hltn, ?_⟩
    have hg := pyRfind_getD ((escapeMarkdown text).take (L - 100)) c ' ' h0
    rw [take_getD _ _ _ _ (by omega : (pyRfind ((escapeMarkdown text).take (L - 100)) c).toNat < L - 100)] at hg
    exact hg
  constructor
  · intro hno
    have hp : 10 * pyRfind ((escapeMarkdown text).take (L - 100)) '.' ≤ 7 * (L : Int) := by
      rcases le_or_lt 0 (pyRfind ((escapeMarkdown text).take (L - 100)) '.') with h0 | h0
      · obtain ⟨hlt, hg⟩ := key '.' h0
        have hb := hno _ hlt (Or.inl hg)
        omega
      · omega
    have hn : 10 * pyRfind ((escapeMarkdown text).take (L - 100)) nl ≤ 7 * (L : Int) := by
      rcases le_or_lt 0 (pyRfind ((escapeMarkdown text).take (L - 100)) nl) with h0 | h0
      · obtain ⟨hlt, hg⟩ := key nl h0
        have hb := hno _ hlt (Or.inr hg)
        omega
      · omega
    have hcond : ¬ (7 * (L : Int) <
        10 * max (pyRfind ((escapeMarkdown text).take (L - 100)) '.')
          (pyRfind ((escapeMarkdown text).take (L - 100)) nl)) := by
      rcases max_choice (pyRfind ((escapeMarkdown text).take (L - 100)) '.')
        (pyRfind ((escapeMarkdown text).take (L - 100)) nl) with hm | hm <;>
        rw [hm] <;> omega
    simp only [format_message, truncateAt]
    rw [if_neg htext, if_pos hlong, htake, if_neg hcond,
      pyTake_eq_take _ _ (show (0 : Int) ≤ (L : Int) - 15 by omega)]
    have he : ((L : Int) - 15).toNat = L - 15 := by omega
    rw [he]
  · intro p hp hpb h7 hnone
    have hple : (p : Int) ≤ max (pyRfind ((escapeMarkdown text).take (L - 100)) '.')
        (pyRfind ((escapeMarkdown text).take (L - 100)) nl) := by
      have hpw : p < ((escapeMarkdown text).take (L - 100)).length := by omega
      rcases hpb with hdot | hnlc
      · have hwg : ((escapeMarkdown text).take (L - 100)).getD p ' ' = '.' := by
          rw [take_getD _ _ _ _ (by omega : p < L - 100)]
          exact hdot
        exact le_trans (le_pyRfind_of_getD _ _ _ _ hpw hwg) (le_max_left _ _)
      · have hwg : ((escapeMarkdown text).take (L - 100)).getD p ' ' = nl := by
          rw [take_getD _ _ _ _ (by omega : p < L - 100)]
          exact hnlc
        exact le_trans (le_pyRfind_of_getD _ _ _ _ hpw hwg) (le_max_right _ _)
    have h1 : pyRfind ((escapeMarkdown text).take (L - 100)) '.' ≤ (p : Int) := by
      by_contra hgt
      push_neg at hgt
      have h0 : 0 ≤ pyRfind ((escapeMarkdown text).take (L - 100)) '.' := by omega
      obtain ⟨hlt, hg⟩ := key '.' h0
      have hj : p < (pyRfind ((escapeMarkdown text).take (L - 100)) '.').toNat := by omega
      exact (hnone _ hlt hj) (Or.inl hg)
    have h2 : pyRfind ((escapeMarkdown text).take (L - 100)) nl ≤ (p : Int) := by
      by_contra hgt
      push_neg at hgt
      have h0 : 0 ≤ pyRfind ((escapeMarkdown text).take (L - 100)) nl := by omega
      obtain ⟨hlt, hg⟩ := key nl h0
      have hj : p < (pyRfind ((escapeMarkdown text).take (L - 100)) nl).toNat := by omega
      exact (hnone _ hlt hj) (Or.inr hg)
    have hcut : max (pyRfind ((escapeMarkdown text).take (L - 100)) '.')
        (pyRfind ((escapeMarkdown text).take (L - 100)) nl) = (p : Int) :=
      le_antisymm (max_le h1 h2) hple
    simp only [format_message, truncateAt]
    rw [if_neg htext, if_pos hlong, htake, hcut,
      if_pos (show 7 * (L : Int) < 10 * (p : Int) by exact_mod_cast h7),
      pyTake_eq_take _ _ (show (0 : Int) ≤ (p : Int) + 1 by omega)]
    have he : ((p : Int) + 1).toNat = p + 1 := by omega
    rw [he]

theorem format_message_truncation_policy_witness :
    format_message exHard 120 = (escapeMarkdown exHard).take 105 ++ truncMarker ∧
    format_message exPeriod 600 = (escapeMarkdown exPeriod).take 481 ++ truncMarker := by
  constructor
  · have h := (format_message_truncation_policy exHard 120 (by norm_num) (by decide)
      (by decide)).1 (by decide)
    simpa using h
  · have h := (format_message_truncation_policy exPeriod 600 (by norm_num) (by decide)
      (by decide)).2 480 (by decide) (by decide) (by norm_num) (by decide)
    simpa using h

/-! ### Claim theorems: rate limiter -/

/-- Claim C5, counterexample.  The claim purges only instants strictly older
than now - window, so ten requests recorded exactly one window (60 s) before
now would still fill the quota and force a rejection; the code purges with a
strict comparison (req_time > window_start), discards all ten, and allows
the request. -/
theorem rate_limit_boundary_mismatch :
    (rate_limit_check 1 tenAtZero cfg0 60).1 = true ∧
    (rate_limit_check_claimed 1 tenAtZero cfg0 60).1 = false := by decide

theorem rate_limit_check_log_at (uid : UserId) (f : UserId → List Nat)
    (cfg : Config) (now : Nat) :
    (rate_limit_check uid f cfg now).2 uid =
      (if cfg.rate_limit_messages ≤ (purgedLog f uid cfg now).length
       then purgedLog f uid cfg now
       else purgedLog f uid cfg now ++ [now]) := by
  simp only [rate_limit_check, purgedLog]
  split <;> simp_all

theorem rate_limit_check_allows (uid : UserId) (f : UserId → List Nat)
    (cfg : Config) (now : Nat) :
    ((rate_limit_check uid f cfg now).1 = true ↔
      (purgedLog f uid cfg now).length < cfg.rate_limit_messages) := by
  simp only [rate_limit_check, purgedLog]
  split <;> rename_i h <;> simp <;> omega

theorem sameInstantCalls_log (uid : UserId) (now : Nat) :
    ∀ k, k ≤ 10 → sameInstantCalls cfg0 uid now k uid = List.replicate k now := by
  intro k
  induction k with
  | zero => intro _; rfl
  | succ m ih =>
    intro hm
    have hlog := ih (by omega)
    simp only [sameInstantCalls]
    rw [rate_limit_check_log_at]
    simp only [purgedLog]
    rw [hlog]
    have hfil : (List.replicate m now).filter
        (fun (req_time : Nat) =>
          decide ((now : Int) - (cfg0.rate_limit_window : Int) < (req_time : Int))) =
        List.replicate m now := by
      apply filter_replicate_pos
      simp only [decide_eq_true_eq, cfg0]
      omega
    rw [hfil, List.length_replicate,
      if_neg (show ¬ cfg0.rate_limit_messages ≤ m by simp only [cfg0]; omega)]
    exact (List.replicate_succ' _ _).symm

theorem purged_sameInstant (uid : UserId) (now k : Nat) (hk : k ≤ 10) :
    purgedLog (sameInstantCalls cfg0 uid now k) uid cfg0 now = List.replicate k now := by
  simp only [purgedLog]
  rw [sameInstantCalls_log uid now k hk]
  apply filter_replicate_pos
  simp only [decide_eq_true_eq, cfg0]
  omega

theorem purged_sameInstant_later (uid : UserId) (now : Nat) :
    purgedLog (sameInstantCalls cfg0 uid now 10) uid cfg0 (now + 61) = [] := by
  simp only [purgedLog]
  rw [sameInstantCalls_log uid now 10 (by omega)]
  apply filter_replicate_neg
  simp only [decide_eq_false_iff_not, cfg0]
  push_cast
  omega

/-- Claim C5, amended.  utils.rate_limit_check discards the instants at or
before now - window (the code keeps only strictly newer entries, so an entry
exactly one window old is discarded, unlike the claim wording); it then
returns false without recording now when the surviving count reaches the
limit, and otherwise appends now and returns true.  With the deployed
window = 60 s and max = 10: ten calls at the same instant are all allowed,
the eleventh at that instant is rejected, and a call 61 seconds later is
allowed again. -/
theorem rate_limit_check_correct :
    (∀ uid f cfg now,
      (rate_limit_check uid f cfg now).2 uid =
        (if cfg.rate_limit_messages ≤ (purgedLog f uid cfg now).length
         then purgedLog f uid cfg now
         else purgedLog f uid cfg now ++ [now]) ∧
      ((rate_limit_check uid f cfg now).1 = true ↔
        (purgedLog f uid cfg now).length < cfg.rate_limit_messages)) ∧
    (∀ uid now k, k < 10 →
      (rate_limit_check uid (sameInstantCalls cfg0 uid now k) cfg0 now).1 = true) ∧
    (∀ uid now,
      (rate_limit_check uid (sameInstantCalls cfg0 uid now 10) cfg0 now).1 = false) ∧
    (∀ uid now,
      (rate_limit_check uid (sameInstantCalls cfg0 uid now 10) cfg0 (now + 61)).1 = true) := by
  refine ⟨fun uid f cfg now => ⟨rate_limit_check_log_at uid f cfg now,
    rate_limit_check_allows uid f cfg now⟩, ?_, ?_, ?_⟩
  · intro uid now k hk
    rw [rate_limit_check_allows, purged_sameInstant uid now k (by omega),
      List.length_replicate]
    simp only [cfg0]
    omega
  · intro uid now
    have h := rate_limit_check_allows uid (sameInstantCalls cfg0 uid now 10) cfg0 now
    rw [purged_sameInstant uid now 10 (by omega), List.length_replicate] at h
    simp only [cfg0] at h
    cases hb : (rate_limit_check uid (sameInstantCalls cfg0 uid now 10) cfg0 now).1 with
    | false => rfl
    | true => exact absurd (h.mp hb) (by omega)
  · intro uid now
    rw [rate_limit_check_allows, purged_sameInstant_later uid now]
    simp [cfg0]

theorem rate_limit_check_correct_witness :
    (rate_limit_check 2 (sameInstantCalls cfg0 2 7 3) cfg0 7).1 = true ∧
    (rate_limit_check 2 (sameInstantCalls cfg0 2 7 10) cfg0 7).1 = false ∧
    (rate_limit_check 2 (sameInstantCalls cfg0 2 7 10) cfg0 68).1 = true := by
  refine ⟨rate_limit_check_correct.2.1 2 7 3 (by omega),
    rate_limit_check_correct.2.2.1 2 7, ?_⟩
  have h := rate_limit_check_correct.2.2.2 2 7
  simpa using h

/-! ### Claim theorems: conversation store and dispatcher -/

/-- Claim C2, counterexample.  Eleven handled text messages (each allowed by
the rate limiter) leave the conversation history of user 7 with 21 entries:
handle_message trims to 20 entries before the AI call and appends the
assistant turn afterwards, so the stored history exceeds 20. -/
theorem context_after_eleven_messages :
    20 < ((runN 11).user_contexts 7).length := by decide

/-- Claim C2, amended.  After one handled text message the stored history
has length at most 21, not 20: the trim to the last 20 entries happens after
the user turn is appended and before the AI call, and the assistant turn is
appended after the trim.  The stored history is a suffix of the previous
history extended with the user and assistant turns, so it consists of the
most recent turns in order. -/
theorem handle_message_context_bound (cfg : Config) (st : BotState) (uid : UserId)
    (text : String) (now t1 t2 : Nat) (ai : ApiResult) (sendOk : Bool)
    (hallow : (rate_limit_check uid st.user_requests cfg now).1 = true) :
    ((handle_message cfg st uid text now t1 t2 ai sendOk).1.user_contexts uid).length ≤ 21 ∧
    (handle_message cfg st uid text now t1 t2 ai sendOk).1.user_contexts uid <:+
      (st.user_contexts uid ++
        [Turn.mk "user" text t1,
         Turn.mk "assistant"
           (message_response (pyTakeLast 20 (st.user_contexts uid ++ [Turn.mk "user" text t1])) ai)
           t2]) := by
  have hctx : (handle_message cfg st uid text now t1 t2 ai sendOk).1.user_contexts uid =
      pyTakeLast 20 (st.user_contexts uid ++ [Turn.mk "user" text t1]) ++
        [Turn.mk "assistant"
          (message_response (pyTakeLast 20 (st.user_contexts uid ++ [Turn.mk "user" text t1])) ai)
          t2] := by
    cases sendOk <;> simp [handle_message, hallow]
  rw [hctx]
  constructor
  · have hlen : (pyTakeLast 20 (st.user_contexts uid ++ [Turn.mk "user" text t1])).length ≤ 20 := by
      simp only [pyTakeLast, List.length_drop]
      omega
    simp only [List.length_append, List.length_cons, List.length_nil]
    omega
  · obtain ⟨w, hw⟩ : pyTakeLast 20 (st.user_contexts uid ++ [Turn.mk "user" text t1]) <:+
        (st.user_contexts uid ++ [Turn.mk "user" text t1]) := by
      simp only [pyTakeLast]
      exact List.drop_suffix _ _
    refine ⟨w, ?_⟩
    rw [← List.append_assoc, hw]
    simp

theorem handle_message_context_bound_witness :
    ((handle_message cfg0 st0 3 "hello" 0 0 0 (ApiResult.text (some "ok")) true).1.user_contexts 3).length ≤ 21 ∧
    (handle_message cfg0 st0 3 "hello" 0 0 0 (ApiResult.text (some "ok")) true).1.user_contexts 3 <:+
      (st0.user_contexts 3 ++
        [Turn.mk "user" "hello" 0,
         Turn.mk "assistant"
           (message_response (pyTakeLast 20 (st0.user_contexts 3 ++ [Turn.mk "user" "hello" 0]))
             (ApiResult.text (some "ok")))
           0]) :=
  handle_message_context_bound cfg0 st0 3 "hello" 0 0 0 (ApiResult.text (some "ok")) true (by decide)

/-- Claim C3, counterexample.  A failure of the underlying AI call is caught
inside GeminiHandler.generate_response and returned as the string
"Error: boom", so handle_message follows its success path: from the fresh
state, messages_processed becomes 1 and errors stays 0, contradicting the
claim that an AI-collaborator failure increments errors and not
messages_processed. -/
theorem ai_failure_counted_as_processed :
    (handle_message cfg0 st0 5 "hi" 0 0 0 (ApiResult.raise "boom") true).1.stats.messages_processed = 1 ∧
    (handle_message cfg0 st0 5 "hi" 0 0 0 (ApiResult.raise "boom") true).1.stats.errors = 0 := by
  decide

/-- Claim C3, amended.  For a text message accepted by the rate limiter the
counter outcome depends only on the transport send inside the try block,
not on the AI outcome: an AI failure is converted by the collaborator into
an error string delivered as a normal reply, so if the send succeeds
messages_processed is incremented and errors is unchanged, for every AI
outcome including a raised exception; errors is incremented (and
messages_processed unchanged) exactly when the send itself raises at the
dispatcher boundary. -/
theorem handle_message_error_accounting (cfg : Config) (st : BotState)
    (uid : UserId) (text : String) (now t1 t2 : Nat) (ai : ApiResult)
    (sendOk : Bool)
    (hallow : (rate_limit_check uid st.user_requests cfg now).1 = true) :
    (sendOk = true →
      (handle_message cfg st uid text now t1 t2 ai sendOk).1.stats.messages_processed =
        st.stats.messages_processed + 1 ∧
      (handle_message cfg st uid text now t1 t2 ai sendOk).1.stats.errors = st.stats.errors) ∧
    (sendOk = false →
      (handle_message cfg st uid text now t1 t2 ai sendOk).1.stats.errors =
        st.stats.errors + 1 ∧
      (handle_message cfg st uid text now t1 t2 ai sendOk).1.stats.messages_processed =
        st.stats.messages_processed) := by
  constructor <;> intro hs <;> subst hs <;> simp [handle_message, hallow]

theorem handle_message_error_accounting_witness :
    (handle_message cfg0 st0 4 "hey" 0 0 0 (ApiResult.text (some "ok")) false).1.stats.errors = 1 ∧
    (handle_message cfg0 st0 4 "hey" 0 0 0 (ApiResult.text (some "ok")) false).1.stats.messages_processed = 0 := by
  have h := (handle_message_error_accounting cfg0 st0 4 "hey" 0 0 0
    (ApiResult.text (some "ok")) false (by decide)).2 rfl
  exact ⟨by simpa [st0] using h.1, by simpa [st0] using h.2⟩

/-- Claim C7 (confirmed).  The clear command unconditionally empties the
invoking user entry, so reading the history afterwards gives the empty
sequence; it performs no rate-limit check (the request log is untouched)
and changes no counter, for every prior state. -/
theorem clear_then_history_empty (st : BotState) (uid : UserId) :
    (clear_command st uid).1.user_contexts uid = [] ∧
    (clear_command st uid).1.user_requests = st.user_requests ∧
    (clear_command st uid).1.stats = st.stats := by
  refine ⟨by simp [clear_command], rfl, rfl⟩

/-- Claim C8 (confirmed).  Every admin-panel callback from a user whose
identity does not match the configured admin identity yields the fixed
denial view, regardless of the callback data, and leaves the counters
untouched: the identity check short-circuits before the data dispatch. -/
theorem callback_access_control (admin_id : Nat) (user_id : Nat) (data : String)
    (stats : Stats) (h : is_admin user_id admin_id = false) :
    handle_callback admin_id user_id data stats = (stats, PanelView.denied) := by
  have hne : user_id ≠ admin_id := by
    intro he
    rw [he] at h
    simp [is_admin] at h
  simp [handle_callback, hne]

theorem callback_access_control_witness :
    handle_callback 1 2 "admin_system" st0.stats = (st0.stats, PanelView.denied) :=
  callback_access_control 1 2 "admin_system" st0.stats (by decide)

theorem rate_limit_check_allowed_log (uid : UserId) (f : UserId → List Nat)
    (cfg : Config) (now : Nat) (h : (rate_limit_check uid f cfg now).1 = true) :
    (rate_limit_check uid f cfg now).2 uid = purgedLog f uid cfg now ++ [now] := by
  rw [rate_limit_check_log_at,
    if_neg (by have := (rate_limit_check_allows uid f cfg now).mp h; omega)]

/-- Claim C9 (confirmed).  Every mutating handler of the dispatcher only
increments counters: for every input and every collaborator or transport
outcome, the statistics after handle_message, handle_photo and
generate_command dominate the statistics before pointwise, with the start
time unchanged; clear_command and the admin callback dispatcher leave the
statistics identical.  No operation decreases or resets a counter. -/
theorem counters_monotone :
    (∀ cfg st uid text now t1 t2 ai sendOk,
      Stats.le st.stats (handle_message cfg st uid text now t1 t2 ai sendOk).1.stats) ∧
    (∀ cfg st uid fsz cap now dOk ai eOk,
      Stats.le st.stats (handle_photo cfg st uid fsz cap now dOk ai eOk).1.stats) ∧
    (∀ cfg st uid args now gen sOk dOk,
      Stats.le st.stats (generate_command cfg st uid args now gen sOk dOk).1.stats) ∧
    (∀ st uid, (clear_command st uid).1.stats = st.stats) ∧
    (∀ admin_id user_id data stats,
      (handle_callback admin_id user_id data stats).1 = stats) := by
  refine ⟨?_, ?_, ?_, fun st uid => rfl, ?_⟩
  · intro cfg st uid text now t1 t2 ai sendOk
    cases sendOk <;> simp only [handle_message] <;> split <;> simp [Stats.le]
  · intro cfg st uid fsz cap now dOk ai eOk
    cases dOk <;> cases eOk <;> simp only [handle_photo] <;>
      (repeat' split) <;> simp [Stats.le]
  · intro cfg st uid args now gen sOk dOk
    obtain ⟨og, desc⟩ := gen
    cases og <;> cases sOk <;> cases dOk <;> simp only [generate_command] <;>
      (repeat' split) <;> simp [Stats.le]
  · intro admin_id user_id data stats
    simp only [handle_callback]
    (repeat' split) <;> rfl

/-- Claim C10 (confirmed).  A request rejected by a local policy other than
the rate limit itself still consumes one slot of the rate-limit budget,
because the rate-limit check runs first and appends the request instant:
for an accepted-then-rejected generate command with an empty prompt, and
for an accepted-then-rejected photo whose declared size exceeds the
maximum, the new request log of the user is the purged log with the current
instant appended, while the counters and every conversation history are
unchanged. -/
theorem policy_rejection_consumes_rate_slot
    (cfg : Config) (st : BotState) (uid : UserId) (args : List String)
    (file_size : Nat) (caption : String) (now : Nat)
    (gen : Option String × String) (sendOk deleteOk downloadOk editOk : Bool)
    (ai : ApiResult)
    (hallow : (rate_limit_check uid st.user_requests cfg now).1 = true) :
    (String.intercalate " " args = "" →
      (generate_command cfg st uid args now gen sendOk deleteOk).1.user_requests uid =
        purgedLog st.user_requests uid cfg now ++ [now] ∧
      (generate_command cfg st uid args now gen sendOk deleteOk).1.stats = st.stats ∧
      (generate_command cfg st uid args now gen sendOk deleteOk).1.user_contexts =
        st.user_contexts) ∧
    (cfg.max_image_size < file_size →
      (handle_photo cfg st uid file_size caption now downloadOk ai editOk).1.user_requests uid =
        purgedLog st.user_requests uid cfg now ++ [now] ∧
      (handle_photo cfg st uid file_size caption now downloadOk ai editOk).1.stats = st.stats ∧
      (handle_photo cfg st uid file_size caption now downloadOk ai editOk).1.user_contexts =
        st.user_contexts) := by
  constructor
  · intro hp
    have hres : (generate_command cfg st uid args now gen sendOk deleteOk).1 =
        { st with user_requests := (rate_limit_check uid st.user_requests cfg now).2 } := by
      simp [generate_command, hallow, hp]
    rw [hres]
    exact ⟨rate_limit_check_allowed_log uid st.user_requests cfg now hallow, rfl, rfl⟩
  · intro hp
    have hres : (handle_photo cfg st uid file_size caption now downloadOk ai editOk).1 =
        { st with user_requests := (rate_limit_check uid st.user_requests cfg now).2 } := by
      simp [handle_photo, hallow, hp]
    rw [hres]
    exact ⟨rate_limit_check_allowed_log uid st.user_requests cfg now hallow, rfl, rfl⟩

theorem policy_rejection_consumes_rate_slot_witness :
    (generate_command cfg0 st0 2 [] 0 (none, "d") true true).1.user_requests 2 = [0] ∧
    (handle_photo cfg0 st0 2 (cfg0.max_image_size + 1) "" 0 true
      (ApiResult.text (some "x")) true).1.stats = st0.stats := by
  have h := policy_rejection_consumes_rate_slot cfg0 st0 2 [] (cfg0.max_image_size + 1)
    "" 0 (none, "d") true true true true (ApiResult.text (some "x")) (by decide)
  constructor
  · have h1 := (h.1 (by decide)).1
    simpa [purgedLog, st0] using h1
  · exact (h.2 (by omega)).2.1
